import Mathlib

/-!
Verification development for the DeepBlue repository (two Python CLI tools:
`fetchmarketdata.py`, the market data CLI, and `fetch_news.py`, the concurrent
technical report tool).  The Python sources are shallowly embedded as
executable Lean definitions: machine floats that only ever carry exact
decimal / integer market data are modelled as rationals, a float NaN is
modelled explicitly where it can arise, and each fallible step is modelled
with Option / Except.  External collaborators (the yfinance provider, the
TextBlob polarity scorer) enter as explicit function parameters.
-/

namespace DeepBlue

set_option maxRecDepth 8000

/-- A single quote character, written with an escape so the source stays
plain ASCII identifiers elsewhere.  Python error messages quote values with
this character. -/
def sq : String := "'"

/-- True for the ASCII digits, the characters Python int / float literals
are made of. -/
def chDigit (c : Char) : Bool := c.isDigit

/-- Numeric value of a list of ASCII digit characters (most significant
first). -/
def digitsValN (l : List Char) : Nat := l.foldl (fun a c => a * 10 + (c.toNat - 48)) 0

/-- Python `s.strip()` on a character list: drop whitespace from both
ends.  (Core `String.trim` recurses on byte positions, which the kernel
cannot evaluate; this structural version is extensionally the same on the
ASCII data here.) -/
def pyStripChars (l : List Char) : List Char :=
  ((l.dropWhile Char.isWhitespace).reverse.dropWhile Char.isWhitespace).reverse

/-- Python `s.upper()` (ASCII): uppercase every character. -/
def pyUpper (s : String) : String := ⟨s.data.map Char.toUpper⟩

/-- The first 10 characters of a string (`pubDate[:10]`). -/
def strTake (s : String) (n : Nat) : String := ⟨s.data.take n⟩

/-- Python `sep.join(parts)`. -/
def joinWith (sep : String) : List String → String
  | [] => ""
  | [x] => x
  | x :: rest => x ++ sep ++ joinWith sep rest

/-- Python `"\n".join`. -/
def joinNl (parts : List String) : String := joinWith "\n" parts

/-- Embedding of Python `int(s)` on strings: optional surrounding
whitespace, an optional sign, then a nonempty run of digits; anything else
raises ValueError, modelled as `none`.  (Underscore separators and non
ASCII digits, which the repository never passes, are not modelled.) -/
def parsePyInt (s : String) : Option Int :=
  let t := pyStripChars s.data
  let sgn : Int := match t with
    | '-' :: _ => -1
    | _ => 1
  let body : List Char := match t with
    | '-' :: rest => rest
    | '+' :: rest => rest
    | l => l
  if !body.isEmpty && body.all chDigit then some (sgn * (digitsValN body : Int)) else none

/-- Embedding of Python `float(s)` on the decimal forms the CLI can
receive: optional surrounding whitespace, optional sign, digits with an
optional fractional part.  Exponent, inf and nan forms, never produced by
the callers, are not modelled; anything else raises ValueError, modelled as
`none`. -/
def parsePyFloat (s : String) : Option ℚ :=
  let t := pyStripChars s.data
  let sgn : ℚ := match t with
    | '-' :: _ => -1
    | _ => 1
  let body : List Char := match t with
    | '-' :: rest => rest
    | '+' :: rest => rest
    | l => l
  let ip := body.takeWhile chDigit
  let rest := body.dropWhile chDigit
  match rest with
  | [] => if ip.isEmpty then none else some (sgn * (digitsValN ip : ℚ))
  | '.' :: fp =>
    if fp.all chDigit && (!ip.isEmpty || !fp.isEmpty) then
      some (sgn * ((digitsValN ip : ℚ) + (digitsValN fp : ℚ) / (10 : ℚ) ^ fp.length))
    else none
  | _ => none

/-- Embedding of Python `int(x)` on a float value: truncation toward
zero. -/
def pyTrunc (q : ℚ) : Int := if q < 0 then -⌊-q⌋ else ⌊q⌋

/-- Embedding of Python `round(x, 4)` scaled rounding: round half to even
on the exact rational value.  The repository only rounds provider prices;
on values exactly representable in binary floating point this agrees with
CPython. -/
def roundHalfEven (q : ℚ) : Int :=
  let f := ⌊q⌋
  if q - (f : ℚ) < 1 / 2 then f
  else if q - (f : ℚ) > 1 / 2 then f + 1
  else if f % 2 = 0 then f else f + 1

/-- Embedding of `round(x, 4)` from `fetchmarketdata.py`: four decimal places. -/
def round4 (q : ℚ) : ℚ := (roundHalfEven (q * 10000) : ℚ) / 10000

/-- Embedding of the Python slice `l[a:]` (as used by `hist.iloc[-limit:]`):
a negative start counts from the end and clamps at zero, a nonnegative
start clamps at the length. -/
def pySliceFrom (a : Int) (l : List α) : List α :=
  let n : Int := l.length
  let start : Int := if a < 0 then max (n + a) 0 else min a n
  l.drop start.toNat

/-- Rendering of a Python list of strings as `repr` prints it, as interpolated into the two
validation error messages (`list(TF_TO_YF_INTERVAL.keys())` etc.). -/
def pyListRepr (l : List String) : String :=
  "[" ++ joinWith ", " (l.map (fun k => sq ++ k ++ sq)) ++ "]"

/-- Table `TF_TO_YF_INTERVAL` from `fetchmarketdata.py`: timeframe codes to
yfinance interval strings, in source order. -/
def TF_TO_YF_INTERVAL : List (String × String) :=
  [("1m", "1m"), ("5m", "5m"), ("15m", "15m"), ("1h", "1h"),
   ("1d", "1d"), ("1w", "1wk"), ("1mo", "1mo")]

/-- Table `RANGE_TO_YF_PERIOD` from `fetchmarketdata.py`: range codes to
yfinance period strings, in source order. -/
def RANGE_TO_YF_PERIOD : List (String × String) :=
  [("7d", "7d"), ("30d", "1mo"), ("90d", "3mo"),
   ("180d", "6mo"), ("1y", "1y"), ("2y", "2y")]

/-- Table `RANGE_TO_TIMEDELTA` from `fetchmarketdata.py`, with each timedelta
recorded as its whole number of days. -/
def RANGE_TO_TIMEDELTA : List (String × Int) :=
  [("7d", 7), ("30d", 30), ("90d", 90), ("180d", 180), ("1y", 365), ("2y", 730)]

/-- One OHLCV row of the DataFrame returned by `ticker.history`: the index
converted to unix seconds, exact prices and an integral volume. -/
structure HistBar where
  ts : Int
  openV : ℚ
  highV : ℚ
  lowV : ℚ
  closeV : ℚ
  volume : Int
deriving DecidableEq

/-- A candle of the JSON output (`time`, `open`, `high`, `low`, `close`,
`volume`); `open` is a Lean keyword so the price fields carry a `P`
suffix. -/
structure Candle where
  time : Int
  openP : ℚ
  highP : ℚ
  lowP : ℚ
  closeP : ℚ
  volume : Int
deriving DecidableEq

/-- The per-row conversion of the candles loop: unix timestamp, prices
rounded to 4 decimals, integral volume. -/
def histBarToCandle (b : HistBar) : Candle :=
  ⟨b.ts, round4 b.openV, round4 b.highV, round4 b.lowV, round4 b.closeV, b.volume⟩

/-- The `result` dict of a successful candles invocation. -/
structure CandlesResult where
  symbol : String
  tf : String
  candles : List Candle
  nextTo : Option Int
deriving DecidableEq

/-- The `result` dict of a successful quote invocation. -/
structure QuoteResult where
  symbol : String
  price : ℚ
  timestampUtc : String
deriving DecidableEq

/-- Observable outcome of one CLI command: a successful JSON result
(exit 0), the `error_json` path (prints the ok-false object, exit 1), or an
uncaught Python exception (traceback on stderr, nothing on stdout,
exit 1). -/
inductive CliOutcome (α : Type) where
  | ok (val : α)
  | errorJson (msg : String)
  | uncaught (msg : String)
deriving DecidableEq

/-- JSON values appearing at the top level of the candles result object.
The candles array is kept structured; `jnull` is what `json.dumps` emits
for Python `None`. -/
inductive Jval where
  | jnull
  | jbool (b : Bool)
  | jint (n : Int)
  | jstr (s : String)
  | jcandles (cs : List Candle)
deriving DecidableEq

/-- The key / value pairs of the candles result dict literal, in source
order.  Every key, `nextTo` included, is always present; `json.dumps`
renders a `none` pivot as `null`. -/
def candlesResultPairs (r : CandlesResult) : List (String × Jval) :=
  [("ok", Jval.jbool true),
   ("symbol", Jval.jstr r.symbol),
   ("tf", Jval.jstr r.tf),
   ("candles", Jval.jcandles r.candles),
   ("nextTo", match r.nextTo with
              | none => Jval.jnull
              | some t => Jval.jint t)]

/-- The value stored under the `nextTo` key of the emitted JSON object. -/
def nextToField (r : CandlesResult) : Option Jval :=
  (candlesResultPairs r).lookup "nextTo"

/-- A `ticker.history` request: either a coarse period (standard mode) or
a start / end window (paging mode).  The code passes the window bounds as
`%Y-%m-%d` date strings of UTC datetimes; a date string is a faithful
encoding of the UTC calendar day number, so `window s e i` stands for the
request whose start date is day `s` and end date is day `e`, where day `d`
covers unix seconds `86400*d` to `86400*d + 86399`. -/
inductive HistQuery where
  | period (p : String) (interval : String)
  | window (startDay : Int) (endDay : Int) (interval : String)
deriving DecidableEq

/-- The message of the `Invalid timeframe` error, with the allowed keys
interpolated exactly as Python renders `list(TF_TO_YF_INTERVAL.keys())`. -/
def invalidTfMsg (tf : String) : String :=
  "Invalid timeframe " ++ sq ++ tf ++ sq ++ ". Allowed: " ++
    pyListRepr (TF_TO_YF_INTERVAL.map Prod.fst)

/-- The message of the `Invalid range` error. -/
def invalidRangeMsg (rc : String) : String :=
  "Invalid range " ++ sq ++ rc ++ sq ++ ". Allowed: " ++
    pyListRepr (RANGE_TO_YF_PERIOD.map Prod.fst)

/-- The ValueError message of `int()` on a malformed literal. -/
def intErrMsg (s : String) : String :=
  "invalid literal for int() with base 10: " ++ sq ++ s ++ sq

/-- The ValueError message of `float()` on a malformed literal. -/
def floatErrMsg (s : String) : String :=
  "could not convert string to float: " ++ sq ++ s ++ sq

/-- The history request built inside the `try` block of `cmd_candles`.
With a truthy `--to` the code parses it with `int(float(to_ts))`, takes
`end_dt` at that unix timestamp, `start_dt = end_dt - delta`, and passes
both as `%Y-%m-%d` date strings, i.e. as the calendar days
`fdiv ts 86400`.  Parse failures and the (unreachable) KeyError of
`RANGE_TO_TIMEDELTA[range_code]` are exceptions caught by the handler,
so they surface as `Except.error` with the Python exception text. -/
def candlesQuery (interval yfPeriod rc : String) (toTs : Option String) :
    Except String HistQuery :=
  match toTs with
  | none => Except.ok (HistQuery.period yfPeriod interval)
  | some s =>
    if s = "" then Except.ok (HistQuery.period yfPeriod interval)
    else
      match parsePyFloat s with
      | none => Except.error (floatErrMsg s)
      | some x =>
        match RANGE_TO_TIMEDELTA.lookup rc with
        | none => Except.error (sq ++ rc ++ sq)
        | some days =>
          let toUnix := pyTrunc x
          Except.ok (HistQuery.window ((toUnix - days * 86400).fdiv 86400)
            (toUnix.fdiv 86400) interval)

/-- The tail of the candles success path: trim to the limit keeping the
most recent rows (`hist.iloc[-limit:]`), convert rows to candles, and set
the `nextTo` hint to the first candle timestamp when candles exist. -/
def buildCandlesResult (symbol tfArg : String) (limit : Int)
    (hist : List HistBar) : CandlesResult :=
  let hist2 := if (hist.length : Int) > limit then pySliceFrom (-limit) hist else hist
  let candles := hist2.map histBarToCandle
  { symbol := symbol, tf := tfArg, candles := candles,
    nextTo := (candles.head?).map (fun c => c.time) }

/-- The argument record of the `candles` subcommand (all argparse values
are strings; `--limit` defaults to the string `500`, `--to` to `None`). -/
structure CandlesArgs where
  symbol : String
  tf : String
  range : String
  limit : String
  toTs : Option String
deriving DecidableEq

/-- Embedding of `cmd_candles`.  The provider (`ticker.history`) is an
explicit parameter mapping a request to the DataFrame rows it returns.
Source order is kept: `int(args.limit)` runs before the timeframe and
range validation and outside the `try` block, so a malformed limit is an
uncaught ValueError; validation failures call `error_json`; everything
after `yf_interval` is inside the `try`, whose handler wraps the
exception text. -/
def cmd_candles (args : CandlesArgs) (provider : HistQuery → List HistBar) :
    CliOutcome CandlesResult :=
  match parsePyInt args.limit with
  | none => CliOutcome.uncaught (intErrMsg args.limit)
  | some l =>
    match TF_TO_YF_INTERVAL.lookup args.tf with
    | none => CliOutcome.errorJson (invalidTfMsg args.tf)
    | some interval =>
      match RANGE_TO_YF_PERIOD.lookup args.range with
      | none => CliOutcome.errorJson (invalidRangeMsg args.range)
      | some yfPeriod =>
        match candlesQuery interval yfPeriod args.range args.toTs with
        | Except.error e =>
          CliOutcome.errorJson ("Candle fetch failed for " ++ pyUpper args.symbol ++
            ": " ++ e)
        | Except.ok q =>
          if (provider q).isEmpty then
            CliOutcome.errorJson ("No candle data returned for " ++ pyUpper args.symbol ++
              " tf=" ++ args.tf ++ " range=" ++ args.range)
          else
            CliOutcome.ok (buildCandlesResult (pyUpper args.symbol) args.tf
              (min l 2000) (provider q))

/-- What the quote path reads from the provider: the `fast_info`
`last_price` attribute (absent modelled as `none`) and the closing column
of the one day history fallback. -/
structure QuoteData where
  last_price : Option ℚ
  dailyCloses : List ℚ
deriving DecidableEq

/-- Embedding of `cmd_quote`.  The whole body is inside a `try`; a fetch
exception becomes the wrapped error message.  With no fast price the code
falls back to the last daily close, erroring when that history is empty;
the emitted price is rounded to four decimals. -/
def cmd_quote (symbolArg : String) (fetch : Except String QuoteData)
    (now : String) : CliOutcome QuoteResult :=
  match fetch with
  | Except.error e =>
    CliOutcome.errorJson ("Quote fetch failed for " ++ pyUpper symbolArg ++ ": " ++ e)
  | Except.ok d =>
    match d.last_price with
    | some p => CliOutcome.ok ⟨pyUpper symbolArg, round4 p, now⟩
    | none =>
      match d.dailyCloses.getLast? with
      | none => CliOutcome.errorJson ("No quote data found for " ++ pyUpper symbolArg)
      | some c => CliOutcome.ok ⟨pyUpper symbolArg, round4 c, now⟩

/-!  ### Technical report tool (`fetch_news.py`)  -/

/-- A Python float as it can appear in `result_rsi`: an ordinary value
(modelled exactly as a rational) or the IEEE NaN that the RSI pipeline
produces on short histories. -/
inductive PyFloat where
  | nan
  | val (q : ℚ)
deriving DecidableEq

/-- The three module level result containers of `fetch_news.py`, with
their initial values `-1.0`, `No Data`, `0.0` in `initState`. -/
structure ReportState where
  result_rsi : PyFloat
  result_news : String
  result_sentiment : ℚ
deriving DecidableEq

/-- The initial values of the three global result slots. -/
def initState : ReportState :=
  { result_rsi := PyFloat.val (-1), result_news := "No Data", result_sentiment := 0 }

/-- Pandas `close.diff(1)` on the close column, dropping the leading
NaN (consumed below exactly as pandas `where` consumes it). -/
def diffsOf (closes : List ℚ) : List ℚ :=
  List.zipWith (fun b a => b - a) closes.tail closes

/-- The gain series `diff.where(diff > 0, 0.0)` of
`ta.momentum.RSIIndicator`: the leading NaN of `diff` compares false and
becomes `0.0`, positive moves stay, the rest become `0.0`. -/
def upMoves (closes : List ℚ) : List ℚ :=
  0 :: (diffsOf closes).map (fun d => if 0 < d then d else 0)

/-- The loss series `-diff.where(diff < 0, 0.0)`. -/
def downMoves (closes : List ℚ) : List ℚ :=
  0 :: (diffsOf closes).map (fun d => if d < 0 then -d else 0)

/-- One step of `ewm(alpha=a, adjust=False).mean()`. -/
def ewmStep (a y v : ℚ) : ℚ := (1 - a) * y + a * v

/-- The last entry of `ewm(alpha=a, adjust=False).mean()` over a fully
numeric series: the recursion starts at the first observation. -/
def ewmLast (a : ℚ) : List ℚ → ℚ
  | [] => 0
  | x :: xs => xs.foldl (fun y v => ewmStep a y v) x

/-- The RSI formula of `ta.momentum.RSIIndicator` applied to the two
smoothed series: `np.where(emadn == 0, 100, 100 - 100 / (1 + emaup / emadn))`. -/
def rsiFromEmas (eu ed : ℚ) : ℚ :=
  if ed = 0 then 100 else 100 - 100 / (1 + eu / ed)

/-- The last value of `RSIIndicator(close, window=14).rsi()` (the external
`ta` library with its defaults, `fillna=False`): the smoothed means use
`min_periods = 14`, so the first 13 outputs are NaN and the last output is
a number precisely when the history has at least 14 rows. -/
def rsiLast (closes : List ℚ) : Option ℚ :=
  if closes.length < 14 then none
  else some (rsiFromEmas (ewmLast (1 / 14) (upMoves closes))
                         (ewmLast (1 / 14) (downMoves closes)))

/-- Worker 1 (`get_rsi_data`): the value it stores into `result_rsi`.
The history fetch is a parameter; any exception in the bare `except`
yields the `-1.0` sentinel, an empty history yields `-1.0`, and otherwise
the worker stores `rsi().iloc[-1]`, which is NaN on short histories. -/
def get_rsi_data (fetch : Except String (List ℚ)) : PyFloat :=
  match fetch with
  | Except.error _ => PyFloat.val (-1)
  | Except.ok closes =>
    if closes.isEmpty then PyFloat.val (-1)
    else
      match rsiLast closes with
      | none => PyFloat.nan
      | some v => PyFloat.val v

/-- One entry of `ticker.news` after the `content.get` defaults have been
applied: `title` defaults to `No Title`, `summary` and `pubDate` to the
empty string. -/
structure NewsItem where
  title : String
  summary : String
  pubDate : String
deriving DecidableEq

/-- What worker 2 reads from the provider: `ticker.news` (a possibly empty
list) and the short name read via `ticker.info.get` with default empty. -/
structure NewsFetchData where
  newsList : List NewsItem
  shortName : String
deriving DecidableEq

/-- Helper for `pySplitWs`: walk the characters, accumulating the current
word reversed. -/
def splitWsAux : List Char → List Char → List String
  | [], acc => if acc.isEmpty then [] else [⟨acc.reverse⟩]
  | c :: rest, acc =>
    if Char.isWhitespace c then
      (if acc.isEmpty then splitWsAux rest [] else ⟨acc.reverse⟩ :: splitWsAux rest [])
    else splitWsAux rest (c :: acc)

/-- Python `s.split()` with no separator: split on whitespace runs,
discarding empty pieces. -/
def pySplitWs (s : String) : List String := splitWsAux s.data []

/-- Whether `needle` is a prefix of `hay` (on character lists). -/
def listStartsWith : List Char → List Char → Bool
  | _, [] => true
  | [], _ :: _ => false
  | h :: hs, n :: ns => if h = n then listStartsWith hs ns else false

/-- Whether `needle` occurs contiguously inside `hay` (the empty needle
occurs everywhere, as with Python `in`). -/
def listHasInfix : List Char → List Char → Bool
  | hay, needle =>
    if listStartsWith hay needle then true
    else
      match hay with
      | [] => false
      | _ :: rest => listHasInfix rest needle

/-- Case insensitive membership as Python `needle in hay` after both went
through `.upper()` (the feed is ASCII text, where `.upper()` and
`String.toUpper` agree). -/
def strContains (hay needle : String) : Bool :=
  listHasInfix hay.data needle.data

/-- The relevance filter of `get_news_data`: some keyword, uppercased,
occurs in `(title + " " + summary).upper()`. -/
def isRelevant (kws : List String) (it : NewsItem) : Bool :=
  kws.any (fun k => strContains (pyUpper (it.title ++ " " ++ it.summary)) (pyUpper k))

/-- Embedding of `get_sentiment_score`: empty text scores 0, otherwise the TextBlob
polarity, which enters as the oracle `pol`. -/
def get_sentiment_score (pol : String → ℚ) (text : String) : ℚ :=
  if text = "" then 0 else pol text

/-- The sentiment score of one item (the code scores the title only). -/
def gssScore (pol : String → ℚ) (it : NewsItem) : ℚ :=
  get_sentiment_score pol it.title

/-- The POSITIVE / NEGATIVE / NEUTRAL label attached to one headline. -/
def sentLabel (score : ℚ) : String :=
  if score > 1 / 10 then "POSITIVE"
  else if score < -(1 / 10) then "NEGATIVE"
  else "NEUTRAL"

/-- One formatted headline line
`- [pubDate[:10]] title [label]`. -/
def fmtHeadline (pol : String → ℚ) (it : NewsItem) : String :=
  "- [" ++ strTake it.pubDate 10 ++ "] " ++ it.title ++ " [" ++
    sentLabel (gssScore pol it) ++ "]"

/-- The item loop of `get_news_data`, carrying the `headlines`,
`total_score` and `count` accumulators.  After each item the code breaks
once `count >= 5`; an irrelevant item leaves the accumulators unchanged. -/
def newsLoop (kws : List String) (pol : String → ℚ) :
    List NewsItem → List String → ℚ → Nat → List String × ℚ × Nat
  | [], hs, tot, cnt => (hs, tot, cnt)
  | it :: rest, hs, tot, cnt =>
    if isRelevant kws it then
      (if cnt + 1 ≥ 5 then
        (hs ++ [fmtHeadline pol it], tot + gssScore pol it, cnt + 1)
      else
        newsLoop kws pol rest (hs ++ [fmtHeadline pol it]) (tot + gssScore pol it) (cnt + 1))
    else
      (if cnt ≥ 5 then (hs, tot, cnt) else newsLoop kws pol rest hs tot cnt)

/-- The prefix of the feed the loop actually examines before breaking,
given the entry value of `count`. -/
def processedPrefix (kws : List String) : List NewsItem → Nat → List NewsItem
  | [], _ => []
  | it :: rest, cnt =>
    if isRelevant kws it then
      (if cnt + 1 ≥ 5 then [it] else it :: processedPrefix kws rest (cnt + 1))
    else
      (if cnt ≥ 5 then [it] else it :: processedPrefix kws rest cnt)

/-- The `try` body of `get_news_data` after the fetch: keyword
construction (an IndexError when the short name has no words — its Python
text is `list index out of range`), the filter loop, the fallback headline
and the mean score.  Returns the pair the worker stores on success. -/
def newsBody (symbol : String) (d : NewsFetchData) (pol : String → ℚ) :
    Except String (String × ℚ) :=
  match pySplitWs d.shortName with
  | [] => Except.error "list index out of range"
  | w :: _ =>
    let kws := [symbol, w]
    let res := newsLoop kws pol d.newsList [] 0 0
    let headlines :=
      if res.1.isEmpty then ["No specific news found for " ++ symbol ++ "."] else res.1
    Except.ok (joinNl headlines,
      if 0 < res.2.2 then res.2.1 / (res.2.2 : ℚ) else 0)

/-- The whole `try` of worker 2: the provider fetch itself can raise, and
then the body runs. -/
def newsOutcome (symbol : String) (fetch : Except String NewsFetchData)
    (pol : String → ℚ) : Except String (String × ℚ) :=
  match fetch with
  | Except.error e => Except.error e
  | Except.ok d => newsBody symbol d pol

/-- Worker 2 (`get_news_data`) as a transformer of the global state: on
success it writes `result_news` and `result_sentiment`; the `except`
handler writes only `result_news` with the wrapped exception text. -/
def get_news_data_run (st : ReportState) (symbol : String)
    (fetch : Except String NewsFetchData) (pol : String → ℚ) : ReportState :=
  match newsOutcome symbol fetch pol with
  | Except.error e => { st with result_news := "Error: " ++ e }
  | Except.ok p => { st with result_news := p.1, result_sentiment := p.2 }

/-- The sentiment status computed by the main thread. -/
def sentStatus (s : ℚ) : String :=
  if s > 1 / 10 then "BULLISH"
  else if s < -(1 / 10) then "BEARISH"
  else "NEUTRAL"

/-- Decimal digits of a natural number, via explicit fuel so the
recursion is structural. -/
def natToStrAux : Nat → Nat → List Char
  | 0, _ => []
  | fuel + 1, n =>
    if n < 10 then [Char.ofNat (48 + n)]
    else natToStrAux fuel (n / 10) ++ [Char.ofNat (48 + n % 10)]

/-- Decimal rendering of a natural number. -/
def natToStr (n : Nat) : String := ⟨natToStrAux (n + 1) n⟩

/-- Two digit zero padding for the fractional part of `%.2f`. -/
def pad2 (n : Nat) : String := if n < 10 then "0" ++ natToStr n else natToStr n

/-- Python `%.2f` rendering on the exact values the report prints: round
half to even at two decimals, then render sign, integer part and two
fraction digits. -/
def formatF2 (q : ℚ) : String :=
  let m := roundHalfEven (q * 100)
  (if m < 0 then "-" else "") ++ natToStr (m.natAbs / 100) ++ "." ++ pad2 (m.natAbs % 100)

/-- The sentiment line of the printed report. -/
def sentimentLine (s : ℚ) : String :=
  "SENTIMENT:    " ++ formatF2 s ++ " [" ++ sentStatus s ++ "]"

/-!  ### Derived observations used by the statements below  -/

/-- The candle count of a successful candles invocation. -/
def candlesCount : CliOutcome CandlesResult → Option Nat
  | CliOutcome.ok r => some r.candles.length
  | _ => none

/-- The trimming contract of the candles success path: the result candles
are the fetched rows after the `iloc[-limit:]` trim, and when the fetch
returned more rows than the limit they are exactly the most recent
`limit` rows. -/
def MostRecentTrim (args : CandlesArgs) (provider : HistQuery → List HistBar)
    (limit : Int) (r : CandlesResult) : Prop :=
  ∃ interval yfPeriod q,
    TF_TO_YF_INTERVAL.lookup args.tf = some interval ∧
    RANGE_TO_YF_PERIOD.lookup args.range = some yfPeriod ∧
    candlesQuery interval yfPeriod args.range args.toTs = Except.ok q ∧
    r.candles = (if ((provider q).length : Int) > limit then
        pySliceFrom (-limit) (provider q) else provider q).map histBarToCandle ∧
    (((provider q).length : Int) > limit →
      r.candles = ((provider q).drop ((provider q).length - limit.toNat)).map histBarToCandle)

/-- The property the RSI claim asserts of the stored worker value: the
`-1.0` sentinel or a number in `[0, 100]`. -/
def rsiClaimOK (v : PyFloat) : Prop :=
  v = PyFloat.val (-1) ∨ ∃ q, v = PyFloat.val q ∧ 0 ≤ q ∧ q ≤ 100

/-- Histories on which the `ta` RSI pipeline never produces NaN: a failed
fetch, an empty history (the sentinel branch), or at least 14 rows. -/
def rsiInputOK : Except String (List ℚ) → Bool
  | Except.error _ => true
  | Except.ok closes => closes.isEmpty || decide (14 ≤ closes.length)

/-- A one row provider response used in several concrete runs. -/
def oneBar : HistBar := ⟨100, 1, 2, 1, 2, 3⟩

/-- A seven row provider response with recognisable timestamps. -/
def sevenBars : List HistBar :=
  [⟨1, 1, 1, 1, 1, 0⟩, ⟨2, 1, 1, 1, 1, 0⟩, ⟨3, 1, 1, 1, 1, 0⟩, ⟨4, 1, 1, 1, 1, 0⟩,
   ⟨5, 1, 1, 1, 1, 0⟩, ⟨6, 1, 1, 1, 1, 0⟩, ⟨7, 1, 1, 1, 1, 0⟩]

/-- A polarity oracle that scores every text 0. -/
def polZero : String → ℚ := fun _ => 0

/-- A news item whose title contains the ticker `AMD`. -/
def amdItem : NewsItem :=
  ⟨"AMD soars after earnings", "A great day for AMD", "2026-01-02T10:00:00Z"⟩

/-- The result record of the seven-row run with limit 5. -/
def c2res : CandlesResult := buildCandlesResult "AMD" "1d" 5 sevenBars

/-- The result record of a one-row run with the default limit. -/
def c3res : CandlesResult := ⟨"MSFT", "1d", [histBarToCandle oneBar], some 100⟩

/-- A seven item news feed with six items relevant to `AMD` or
`Advanced`. -/
def newsSample : List NewsItem :=
  [amdItem,
   ⟨"Markets quiet", "", "2026-01-03T08:00:00Z"⟩,
   ⟨"AMD releases new GPU", "", "2026-01-04T08:00:00Z"⟩,
   ⟨"Advanced Micro results", "", "2026-01-05T08:00:00Z"⟩,
   ⟨"Chip sector rally", "AMD leads the pack", "2026-01-06T08:00:00Z"⟩,
   ⟨"AMD guidance", "", "2026-01-07T08:00:00Z"⟩,
   ⟨"AMD partnership", "", "2026-01-08T08:00:00Z"⟩]

/-- The fetch of the C7 witness run: the sample feed plus the short name
`Advanced Micro Devices`. -/
def newsFetchSample : NewsFetchData := ⟨newsSample, "Advanced Micro Devices"⟩

/-- Fourteen constant closes, enough rows for a numeric RSI. -/
def ones14 : List ℚ := List.replicate 14 1

/-!  ### General lemmas  -/

/-- Subtracting a whole number of days commutes with taking the calendar
day of a unix timestamp. -/
lemma fdiv_day_shift (p d : Int) :
    (p - d * 86400).fdiv 86400 = p.fdiv 86400 - d := by
  rw [Int.fdiv_eq_ediv _ (by norm_num), Int.fdiv_eq_ediv _ (by norm_num)]
  omega

/-- A unix timestamp lies inside the calendar day the date string
encodes. -/
lemma fdiv_day_bounds (p : Int) :
    (p.fdiv 86400) * 86400 ≤ p ∧ p < (p.fdiv 86400) * 86400 + 86400 := by
  rw [Int.fdiv_eq_ediv _ (by norm_num)]
  omega

/-- The Python slice `l[-k:]` for a positive `k` keeps the last `k`
elements. -/
lemma pySliceFrom_neg_eq_drop (k : Int) (hk : 1 ≤ k) (l : List α) :
    pySliceFrom (-k) l = l.drop (l.length - k.toNat) := by
  simp only [pySliceFrom]
  rw [if_pos (by omega : -k < 0)]
  congr 1
  rcases le_total ((l.length : Int) + -k) 0 with h | h
  · rw [max_eq_right h]; omega
  · rw [max_eq_left h]; omega

/-- The candles stored by the success path, unfolded. -/
lemma buildCandlesResult_candles (symbol tfArg : String) (limit : Int)
    (hist : List HistBar) :
    (buildCandlesResult symbol tfArg limit hist).candles =
      (if (hist.length : Int) > limit then pySliceFrom (-limit) hist else hist).map
        histBarToCandle := rfl

/-- The `nextTo` slot stored by the success path, unfolded. -/
lemma buildCandlesResult_nextTo (symbol tfArg : String) (limit : Int)
    (hist : List HistBar) :
    (buildCandlesResult symbol tfArg limit hist).nextTo =
      ((buildCandlesResult symbol tfArg limit hist).candles.head?).map
        (fun c => c.time) := rfl

/-- With a positive limit the success path emits at most `limit`
candles. -/
lemma buildCandlesResult_length (symbol tfArg : String) (limit : Int)
    (hist : List HistBar) (h1 : 1 ≤ limit) :
    ((buildCandlesResult symbol tfArg limit hist).candles.length : Int) ≤ limit := by
  rw [buildCandlesResult_candles, List.length_map]
  split
  case isTrue h =>
    rw [pySliceFrom_neg_eq_drop limit h1, List.length_drop]
    omega
  case isFalse h => omega

/-- Inversion of a successful `cmd_candles` run: the limit parsed, both
codes validated, the query built, the fetch was nonempty and the result is
the trimmed conversion. -/
lemma cmd_candles_ok_cases (args : CandlesArgs) (provider : HistQuery → List HistBar)
    (r : CandlesResult) (hok : cmd_candles args provider = CliOutcome.ok r) :
    ∃ l interval yfPeriod q,
      parsePyInt args.limit = some l ∧
      TF_TO_YF_INTERVAL.lookup args.tf = some interval ∧
      RANGE_TO_YF_PERIOD.lookup args.range = some yfPeriod ∧
      candlesQuery interval yfPeriod args.range args.toTs = Except.ok q ∧
      (provider q).isEmpty = false ∧
      r = buildCandlesResult (pyUpper args.symbol) args.tf (min l 2000) (provider q) := by
  unfold cmd_candles at hok
  split at hok
  · exact absurd hok (by simp)
  next l hl =>
    split at hok
    · exact absurd hok (by simp)
    next interval htf =>
      split at hok
      · exact absurd hok (by simp)
      next yfPeriod hrc =>
        split at hok
        next e hq => exact absurd hok (by simp)
        next q hq =>
          split at hok
          · exact absurd hok (by simp)
          next hne =>
            refine ⟨l, interval, yfPeriod, q, hl, htf, hrc, hq, by simpa using hne, ?_⟩
            injection hok with h
            exact h.symm

/-- With a parseable limit, an unknown timeframe code always takes the
`error_json` path with the allowed-values message, whatever the provider
would have answered. -/
theorem candles_invalid_tf_errors (args : CandlesArgs)
    (provider : HistQuery → List HistBar) (l : Int)
    (hl : parsePyInt args.limit = some l)
    (htf : TF_TO_YF_INTERVAL.lookup args.tf = none) :
    cmd_candles args provider = CliOutcome.errorJson (invalidTfMsg args.tf) := by
  unfold cmd_candles
  rw [hl, htf]

/-- With a parseable limit and a known timeframe, an unknown range code
always takes the `error_json` path with the allowed-values message. -/
theorem candles_invalid_range_errors (args : CandlesArgs)
    (provider : HistQuery → List HistBar) (l : Int) (interval : String)
    (hl : parsePyInt args.limit = some l)
    (htf : TF_TO_YF_INTERVAL.lookup args.tf = some interval)
    (hrc : RANGE_TO_YF_PERIOD.lookup args.range = none) :
    cmd_candles args provider = CliOutcome.errorJson (invalidRangeMsg args.range) := by
  unfold cmd_candles
  rw [hl, htf, hrc]

/-!  ### C1 — paging window geometry  -/

/-- C1, counterexample.  The claim says the window passed to the provider
ends at the pivot timestamp.  At pivot 43200 (noon of day 0, UTC) with
range `7d` the code passes the date strings of days -7 and 0, i.e. the
second window in unix seconds is (-604800, 0), while the claimed window is
(43200 - 604800, 43200): the passed end is the day start, not the
pivot. -/
theorem c1_window_end_cex :
    candlesQuery "1d" "7d" "7d" (some "43200") =
      Except.ok (HistQuery.window (-7) 0 "1d") ∧
    ((-7 : Int) * 86400, (0 : Int) * 86400) ≠
      ((43200 : Int) - 7 * 86400, (43200 : Int)) := by
  exact ⟨by with_unfolding_all rfl, by decide⟩

/-- C1, amended.  For a valid range code with mapped day count `days` and
a parseable pivot string, the paging request is the window whose end day
is the pivot day (`fdiv` by 86400, the day the date string encodes, which
contains the pivot timestamp) and whose start day is exactly the end day
minus `days`. -/
theorem c1_paging_window (interval yfPeriod rc s : String) (x : ℚ) (days : Int)
    (hd : RANGE_TO_TIMEDELTA.lookup rc = some days)
    (hs : ¬ s = "")
    (hx : parsePyFloat s = some x) :
    candlesQuery interval yfPeriod rc (some s) =
      Except.ok (HistQuery.window ((pyTrunc x - days * 86400).fdiv 86400)
        ((pyTrunc x).fdiv 86400) interval) ∧
    (pyTrunc x - days * 86400).fdiv 86400 = (pyTrunc x).fdiv 86400 - days ∧
    ((pyTrunc x).fdiv 86400) * 86400 ≤ pyTrunc x ∧
    pyTrunc x < ((pyTrunc x).fdiv 86400) * 86400 + 86400 := by
  refine ⟨?_, fdiv_day_shift _ _, (fdiv_day_bounds _).1, (fdiv_day_bounds _).2⟩
  simp only [candlesQuery, hx, hd, if_neg hs]

/-- C1, witness: the amended statement at pivot string `43200` and range
`7d`. -/
theorem c1_paging_window_witness :
    candlesQuery "1d" "7d" "7d" (some "43200") =
      Except.ok (HistQuery.window ((pyTrunc 43200 - 7 * 86400).fdiv 86400)
        ((pyTrunc 43200).fdiv 86400) "1d") ∧
    (pyTrunc 43200 - 7 * 86400).fdiv 86400 = (pyTrunc 43200).fdiv 86400 - 7 ∧
    ((pyTrunc 43200).fdiv 86400) * 86400 ≤ pyTrunc 43200 ∧
    pyTrunc 43200 < ((pyTrunc 43200).fdiv 86400) * 86400 + 86400 :=
  c1_paging_window "1d" "7d" "7d" "43200" 43200 7 (by decide) (by decide)
    (by with_unfolding_all rfl)

/-!  ### C4 and C5 — the malformed limit escapes the JSON error policy  -/

/-- C4: a malformed `--limit` is parsed by `int()` before the `try` block,
so the invocation dies with an uncaught ValueError — stdout carries no
JSON at all, contradicting the every-failure-is-JSON claim. -/
theorem c4_malformed_limit_uncaught :
    cmd_candles ⟨"amd", "1d", "7d", "abc", none⟩ (fun _ => []) =
      CliOutcome.uncaught (intErrMsg "abc") := by
  unfold cmd_candles
  rw [show parsePyInt "abc" = none from by decide]

/-- C5: an invocation whose `--tf` is invalid is claimed to fail with the
allowed-values JSON error, but when `--limit` is also malformed the
`int()` call crashes first, before the timeframe check runs. -/
theorem c5_invalid_tf_masked :
    TF_TO_YF_INTERVAL.lookup "2d" = none ∧
    cmd_candles ⟨"amd", "2d", "7d", "abc", none⟩ (fun _ => []) =
      CliOutcome.uncaught (intErrMsg "abc") ∧
    (CliOutcome.uncaught (intErrMsg "abc") : CliOutcome CandlesResult) ≠
      CliOutcome.errorJson (invalidTfMsg "2d") := by
  refine ⟨by decide, ?_, fun h => CliOutcome.noConfusion h⟩
  unfold cmd_candles
  rw [show parsePyInt "abc" = none from by decide]

/-!  ### C6 — quote fallback price  -/

/-- C6, counterexample.  With no fast price and latest daily close 1/32,
the emitted price is `round(1/32, 4) = 0.0312`, not the close itself. -/
theorem c6_quote_fallback_cex :
    cmd_quote "amd" (Except.ok ⟨none, [1 / 32]⟩) "2026-01-01T00:00:00Z" =
      CliOutcome.ok ⟨"AMD", 39 / 1250, "2026-01-01T00:00:00Z"⟩ ∧
    (39 / 1250 : ℚ) ≠ 1 / 32 := by
  exact ⟨by with_unfolding_all rfl, by with_unfolding_all decide⟩

/-- C6, amended: when the fast price field is unavailable and the daily
history is nonempty, the emitted price equals the latest daily close
rounded to four decimal places. -/
theorem c6_quote_fallback (symbolArg now : String) (d : QuoteData) (c : ℚ)
    (hfast : d.last_price = none) (hlast : d.dailyCloses.getLast? = some c) :
    cmd_quote symbolArg (Except.ok d) now =
      CliOutcome.ok ⟨pyUpper symbolArg, round4 c, now⟩ := by
  unfold cmd_quote
  simp only [hfast, hlast]

/-- C6, witness: the amended statement on a one-close history whose close
is exact at four decimals. -/
theorem c6_quote_fallback_witness :
    cmd_quote "ibm" (Except.ok ⟨none, [2]⟩) "t" =
      CliOutcome.ok ⟨"IBM", round4 2, "t"⟩ :=
  c6_quote_fallback "ibm" "t" ⟨none, [2]⟩ 2 (by decide) (by with_unfolding_all decide)

/-!  ### C2 — candle count versus the requested limit  -/

/-- C2, counterexample.  A successful invocation with requested limit 0:
`min(0, 2000) = 0`, the history of one row is longer than 0, and the trim
`hist.iloc[-0:]` keeps everything (Python `-0 == 0`), so one candle is
emitted although the requested limit was 0. -/
theorem c2_limit_cex :
    parsePyInt "0" = some 0 ∧
    candlesCount (cmd_candles ⟨"amd", "1d", "7d", "0", none⟩
      (fun _ => [oneBar])) = some 1 ∧
    ¬ (1 : Int) ≤ 0 := by
  exact ⟨by decide, by with_unfolding_all rfl, by decide⟩

/-- C2, amended.  For every successful candles invocation whose requested
limit is positive, the emitted candle count is at most the requested limit
and at most 2000, and the candles are the trimmed conversion keeping the
most recent `min(limit, 2000)` rows when the fetch returned more. -/
theorem c2_limit_bound (args : CandlesArgs) (provider : HistQuery → List HistBar)
    (l : Int) (r : CandlesResult)
    (hl : parsePyInt args.limit = some l) (h1 : 1 ≤ l)
    (hok : cmd_candles args provider = CliOutcome.ok r) :
    ((r.candles.length : Int) ≤ l ∧ (r.candles.length : Int) ≤ 2000) ∧
      MostRecentTrim args provider (min l 2000) r := by
  obtain ⟨lp, interval, yfPeriod, q, hlp, htf, hrc, hq, hne, hr⟩ :=
    cmd_candles_ok_cases args provider r hok
  rw [hl] at hlp
  injection hlp with hll
  subst hll
  have hmin : (1 : Int) ≤ min l 2000 := le_min h1 (by norm_num)
  have hlen := buildCandlesResult_length (pyUpper args.symbol) args.tf
    (min l 2000) (provider q) hmin
  subst hr
  refine ⟨⟨hlen.trans (min_le_left _ _), hlen.trans (min_le_right _ _)⟩,
    interval, yfPeriod, q, htf, hrc, hq, buildCandlesResult_candles _ _ _ _, ?_⟩
  intro hgt
  rw [buildCandlesResult_candles, if_pos hgt, pySliceFrom_neg_eq_drop _ hmin]

/-- C2, witness: the amended bound at limit 5 on a seven row fetch. -/
theorem c2_limit_bound_witness :
    (c2res.candles.length : Int) ≤ 5 ∧ (c2res.candles.length : Int) ≤ 2000 :=
  (c2_limit_bound ⟨"amd", "1d", "7d", "5", none⟩ (fun _ => sevenBars) 5 c2res
    (by decide) (by decide) (by with_unfolding_all rfl)).1

/-!  ### C3 — the nextTo hint  -/

/-- The `nextTo` key always carries the JSON image of the stored pivot. -/
lemma nextToField_eq (r : CandlesResult) :
    nextToField r = some (match r.nextTo with
      | none => Jval.jnull
      | some t => Jval.jint t) := by
  rcases r with ⟨sym, tfv, cs, nt⟩
  cases nt <;> rfl

/-- C3, counterexample.  With requested limit -1 a one row fetch succeeds
with an empty candle list (`hist.iloc[1:]` of one row), and the emitted
object still carries the `nextTo` key, with JSON value `null` — the key is
not absent. -/
theorem c3_next_to_cex :
    cmd_candles ⟨"amd", "1d", "7d", "-1", none⟩ (fun _ => [oneBar]) =
      CliOutcome.ok ⟨"AMD", "1d", [], none⟩ ∧
    nextToField ⟨"AMD", "1d", [], none⟩ = some Jval.jnull := by
  exact ⟨by with_unfolding_all rfl, by decide⟩

/-- C3, amended.  Every successful candles response stores as `nextTo` the
`time` of the first candle (`none` when there are none), and the emitted
JSON object always contains the `nextTo` key — as the integer timestamp
when candles exist and as `null` (present, not absent) when the candle
list is empty. -/
theorem c3_next_to (args : CandlesArgs) (provider : HistQuery → List HistBar)
    (r : CandlesResult) (hok : cmd_candles args provider = CliOutcome.ok r) :
    r.nextTo = (r.candles.head?).map (fun c => c.time) ∧
    nextToField r = some (match r.nextTo with
      | none => Jval.jnull
      | some t => Jval.jint t) ∧
    (r.candles = [] → nextToField r = some Jval.jnull) := by
  obtain ⟨lp, interval, yfPeriod, q, hlp, htf, hrc, hq, hne, hr⟩ :=
    cmd_candles_ok_cases args provider r hok
  subst hr
  refine ⟨rfl, nextToField_eq _, ?_⟩
  intro hnil
  have h1 : (buildCandlesResult (pyUpper args.symbol) args.tf (min lp 2000)
      (provider q)).nextTo = none := by
    rw [buildCandlesResult_nextTo, hnil]
    rfl
  rw [nextToField_eq, h1]

/-- C3, witness: the amended statement on a one row fetch with the default
limit string. -/
theorem c3_next_to_witness :
    c3res.nextTo = (c3res.candles.head?).map (fun c => c.time) ∧
    nextToField c3res = some (Jval.jint 100) ∧
    (c3res.candles = [] → nextToField c3res = some Jval.jnull) :=
  c3_next_to ⟨"msft", "1d", "30d", "500", none⟩ (fun _ => [oneBar]) c3res
    (by with_unfolding_all rfl)

/-!  ### C7 — the news filter loop  -/

/-- Closed form of the news loop below the break threshold: it appends the
formatted first `5 - cnt` relevant items, adds their title scores, and
counts them. -/
lemma newsLoop_spec (kws : List String) (pol : String → ℚ) (items : List NewsItem) :
    ∀ (hs : List String) (tot : ℚ) (cnt : Nat), cnt < 5 →
      newsLoop kws pol items hs tot cnt =
        (hs ++ ((items.filter (isRelevant kws)).take (5 - cnt)).map (fmtHeadline pol),
         tot + (((items.filter (isRelevant kws)).take (5 - cnt)).map (gssScore pol)).sum,
         cnt + min (items.filter (isRelevant kws)).length (5 - cnt)) := by
  induction items with
  | nil => intro hs tot cnt hcnt; simp [newsLoop]
  | cons it rest ih =>
    intro hs tot cnt hcnt
    by_cases hrel : isRelevant kws it
    · rw [List.filter_cons_of_pos hrel]
      by_cases hstop : cnt + 1 ≥ 5
      · have hc4 : cnt = 4 := by omega
        subst hc4
        simp only [newsLoop, if_pos hrel, if_pos hstop]
        norm_num
      · have h54 : 5 - cnt = (4 - cnt) + 1 := by omega
        simp only [newsLoop, if_pos hrel, if_neg hstop]
        rw [ih (hs ++ [fmtHeadline pol it]) (tot + gssScore pol it) (cnt + 1) (by omega),
          h54, List.take_succ_cons]
        have h45 : 5 - (cnt + 1) = 4 - cnt := by omega
        rw [h45]
        refine congrArg₂ _ ?_ (congrArg₂ _ ?_ ?_)
        · rw [List.map_cons]; simp
        · rw [List.map_cons, List.sum_cons]; ring
        · rw [List.length_cons, Nat.succ_min_succ]; omega
    · rw [List.filter_cons_of_neg hrel]
      simp only [newsLoop, if_neg hrel, if_neg (by omega : ¬ cnt ≥ 5)]
      exact ih hs tot cnt hcnt

/-- The loop result depends only on the prefix it examines before the
post-item break. -/
lemma newsLoop_stops (kws : List String) (pol : String → ℚ) (items : List NewsItem) :
    ∀ (hs : List String) (tot : ℚ) (cnt : Nat),
      newsLoop kws pol items hs tot cnt =
        newsLoop kws pol (processedPrefix kws items cnt) hs tot cnt := by
  induction items with
  | nil => intro hs tot cnt; rfl
  | cons it rest ih =>
    intro hs tot cnt
    by_cases hrel : isRelevant kws it
    · by_cases hstop : cnt + 1 ≥ 5
      · simp only [newsLoop, processedPrefix, if_pos hrel, if_pos hstop]
      · simp only [newsLoop, processedPrefix, if_pos hrel, if_neg hstop]
        exact ih _ _ _
    · by_cases hstop : cnt ≥ 5
      · simp only [newsLoop, processedPrefix, if_neg hrel, if_pos hstop]
      · simp only [newsLoop, processedPrefix, if_neg hrel, if_neg hstop]
        exact ih _ _ _

/-- C7: with the keywords the worker builds (the ticker and the first word
`w` of the short name), the loop keeps exactly the formatted first five
relevant items of the feed, its count is the number of relevant items
capped at five, and the whole result equals the run over the prefix ending
at the fifth relevant item — iteration stops there. -/
theorem c7_news_filter (symbol : String) (d : NewsFetchData) (pol : String → ℚ)
    (w : String) (ws : List String) (_hw : pySplitWs d.shortName = w :: ws) :
    (newsLoop [symbol, w] pol d.newsList [] 0 0).1 =
      ((d.newsList.filter (isRelevant [symbol, w])).take 5).map (fmtHeadline pol) ∧
    (newsLoop [symbol, w] pol d.newsList [] 0 0).2.2 =
      min (d.newsList.countP (isRelevant [symbol, w])) 5 ∧
    (newsLoop [symbol, w] pol d.newsList [] 0 0).2.2 ≤ 5 ∧
    newsLoop [symbol, w] pol d.newsList [] 0 0 =
      newsLoop [symbol, w] pol (processedPrefix [symbol, w] d.newsList 0) [] 0 0 := by
  have h := newsLoop_spec [symbol, w] pol d.newsList [] 0 0 (by norm_num)
  rw [h]
  have hcount : (d.newsList.filter (isRelevant [symbol, w])).length =
      d.newsList.countP (isRelevant [symbol, w]) :=
    (List.countP_eq_length_filter _ _).symm
  refine ⟨by simp, ?_, ?_, ?_⟩
  · simp [hcount]
  · simp
  · rw [← h]
    exact newsLoop_stops [symbol, w] pol d.newsList [] 0 0

/-- C7, witness: the characterization on the sample feed with the worker
keywords for `AMD` / `Advanced Micro Devices`. -/
theorem c7_news_filter_witness :
    (newsLoop ["AMD", "Advanced"] polZero newsFetchSample.newsList [] 0 0).2.2 ≤ 5 :=
  (c7_news_filter "AMD" newsFetchSample polZero "Advanced" ["Micro", "Devices"]
    (by decide)).2.2.1

/-!  ### C8 — the RSI range  -/

/-- The exponentially weighted recursion keeps a nonnegative state on
nonnegative inputs, for a weight between 0 and 1. -/
lemma foldl_ewm_nonneg (a : ℚ) (h0 : 0 ≤ a) (h1 : a ≤ 1) (xs : List ℚ) :
    ∀ y, 0 ≤ y → (∀ x ∈ xs, 0 ≤ x) →
      0 ≤ xs.foldl (fun y v => ewmStep a y v) y := by
  induction xs with
  | nil => intro y hy _; simpa using hy
  | cons x rest ih =>
    intro y hy hmem
    simp only [List.foldl_cons]
    apply ih
    · have hx : 0 ≤ x := hmem x (by simp)
      have ha : 0 ≤ (1 - a) * y := mul_nonneg (by linarith) hy
      have hb : 0 ≤ a * x := mul_nonneg h0 hx
      unfold ewmStep
      linarith
    · intro z hz
      exact hmem z (by simp [hz])

/-- The last smoothed mean of a nonnegative series is nonnegative. -/
lemma ewmLast_nonneg (a : ℚ) (h0 : 0 ≤ a) (h1 : a ≤ 1) (l : List ℚ)
    (hl : ∀ x ∈ l, 0 ≤ x) : 0 ≤ ewmLast a l := by
  cases l with
  | nil => simp [ewmLast]
  | cons x xs =>
    exact foldl_ewm_nonneg a h0 h1 xs x (hl x (by simp))
      (fun z hz => hl z (by simp [hz]))

/-- Every entry of the gain series is nonnegative. -/
lemma upMoves_nonneg (closes : List ℚ) : ∀ x ∈ upMoves closes, 0 ≤ x := by
  intro x hx
  simp only [upMoves, List.mem_cons, List.mem_map] at hx
  rcases hx with h | ⟨d, _, rfl⟩
  · simp [h]
  · by_cases hd : 0 < d
    · simp only [if_pos hd]; linarith
    · simp only [if_neg hd]; exact le_refl 0

/-- Every entry of the loss series is nonnegative. -/
lemma downMoves_nonneg (closes : List ℚ) : ∀ x ∈ downMoves closes, 0 ≤ x := by
  intro x hx
  simp only [downMoves, List.mem_cons, List.mem_map] at hx
  rcases hx with h | ⟨d, _, rfl⟩
  · simp [h]
  · by_cases hd : d < 0
    · simp only [if_pos hd]; linarith
    · simp only [if_neg hd]; exact le_refl 0

/-- The RSI formula maps nonnegative smoothed means into `[0, 100]`. -/
lemma rsiFromEmas_mem (eu ed : ℚ) (heu : 0 ≤ eu) (hed : 0 ≤ ed) :
    0 ≤ rsiFromEmas eu ed ∧ rsiFromEmas eu ed ≤ 100 := by
  unfold rsiFromEmas
  split
  · norm_num
  next hne =>
    have hed' : 0 < ed := lt_of_le_of_ne hed (Ne.symm hne)
    have hrs : 0 ≤ eu / ed := div_nonneg heu hed'.le
    have hpos : (0 : ℚ) < 1 + eu / ed := by linarith
    have hle : 100 / (1 + eu / ed) ≤ 100 := div_le_self (by norm_num) (by linarith)
    have hgt : (0 : ℚ) < 100 / (1 + eu / ed) := div_pos (by norm_num) hpos
    constructor <;> linarith

/-- C8, counterexample.  A valid symbol with a single history row: the
`ta` RSI needs 14 observations, so `rsi().iloc[-1]` is NaN, the worker
stores NaN, and the stored value is neither in `[0, 100]` nor the `-1.0`
sentinel. -/
theorem c8_rsi_cex :
    get_rsi_data (Except.ok [1]) = PyFloat.nan ∧ ¬ rsiClaimOK PyFloat.nan := by
  constructor
  · rfl
  · intro h
    rcases h with h | ⟨q, hq, _, _⟩
    · exact PyFloat.noConfusion h
    · exact PyFloat.noConfusion hq

/-- C8, amended: on a failed fetch, an empty history, or a history of at
least 14 rows, the stored RSI value is the `-1.0` sentinel or a number in
`[0, 100]`; only histories of 1 to 13 rows escape into NaN. -/
theorem c8_rsi_range (fetch : Except String (List ℚ))
    (hin : rsiInputOK fetch = true) : rsiClaimOK (get_rsi_data fetch) := by
  cases fetch with
  | error e => exact Or.inl rfl
  | ok closes =>
    unfold rsiInputOK at hin
    unfold get_rsi_data
    dsimp only at hin ⊢
    by_cases hemp : closes.isEmpty
    · rw [if_pos hemp]
      exact Or.inl rfl
    · rw [if_neg hemp]
      have hlen : 14 ≤ closes.length := by
        rcases Bool.or_eq_true _ _ ▸ hin with h | h
        · exact absurd h hemp
        · exact of_decide_eq_true h
      unfold rsiLast
      rw [if_neg (by omega : ¬ closes.length < 14)]
      have heu : 0 ≤ ewmLast (1 / 14) (upMoves closes) :=
        ewmLast_nonneg _ (by norm_num) (by norm_num) _ (upMoves_nonneg closes)
      have hed : 0 ≤ ewmLast (1 / 14) (downMoves closes) :=
        ewmLast_nonneg _ (by norm_num) (by norm_num) _ (downMoves_nonneg closes)
      exact Or.inr ⟨_, rfl, (rsiFromEmas_mem _ _ heu hed).1,
        (rsiFromEmas_mem _ _ heu hed).2⟩

/-- C8, witness: the amended statement on fourteen constant closes. -/
theorem c8_rsi_range_witness : rsiClaimOK (get_rsi_data (Except.ok ones14)) :=
  c8_rsi_range (Except.ok ones14) (by decide)

/-!  ### C9 and C10 — the news worker failure paths  -/

/-- The sentiment status of the untouched initial score. -/
lemma sentStatus_zero : sentStatus 0 = "NEUTRAL" := by
  unfold sentStatus
  rw [if_neg (by norm_num), if_neg (by norm_num)]

/-- The printed form of the untouched initial score. -/
lemma sentimentLine_zero : sentimentLine 0 = "SENTIMENT:    0.00 [NEUTRAL]" := by
  with_unfolding_all rfl

/-- C9: when the news worker body raises, the handler overwrites only the
headlines slot with the error text; the sentiment slot keeps its value,
and — starting from the initial 0.0 — the report prints sentiment
`0.00 [NEUTRAL]` next to the error text. -/
theorem c9_sentiment_frame (st : ReportState) (symbol : String)
    (fetch : Except String NewsFetchData) (pol : String → ℚ) (e : String)
    (herr : newsOutcome symbol fetch pol = Except.error e)
    (hs : st.result_sentiment = 0) :
    get_news_data_run st symbol fetch pol = { st with result_news := "Error: " ++ e } ∧
    (get_news_data_run st symbol fetch pol).result_sentiment = st.result_sentiment ∧
    (get_news_data_run st symbol fetch pol).result_rsi = st.result_rsi ∧
    sentStatus (get_news_data_run st symbol fetch pol).result_sentiment = "NEUTRAL" ∧
    sentimentLine (get_news_data_run st symbol fetch pol).result_sentiment =
      "SENTIMENT:    0.00 [NEUTRAL]" := by
  have hrun : get_news_data_run st symbol fetch pol =
      { st with result_news := "Error: " ++ e } := by
    unfold get_news_data_run
    rw [herr]
  refine ⟨hrun, by rw [hrun], by rw [hrun], ?_, ?_⟩
  · rw [hrun]
    show sentStatus st.result_sentiment = "NEUTRAL"
    rw [hs, sentStatus_zero]
  · rw [hrun]
    show sentimentLine st.result_sentiment = "SENTIMENT:    0.00 [NEUTRAL]"
    rw [hs, sentimentLine_zero]

/-- C9, witness: a worker whose fetch raises `boom`, run from the initial
global state. -/
theorem c9_sentiment_frame_witness :
    get_news_data_run initState "AMD" (Except.error "boom") polZero =
      { initState with result_news := "Error: boom" } ∧
    (get_news_data_run initState "AMD" (Except.error "boom") polZero).result_sentiment =
      initState.result_sentiment ∧
    (get_news_data_run initState "AMD" (Except.error "boom") polZero).result_rsi =
      initState.result_rsi ∧
    sentStatus (get_news_data_run initState "AMD" (Except.error "boom")
      polZero).result_sentiment = "NEUTRAL" ∧
    sentimentLine (get_news_data_run initState "AMD" (Except.error "boom")
      polZero).result_sentiment = "SENTIMENT:    0.00 [NEUTRAL]" :=
  c9_sentiment_frame initState "AMD" (Except.error "boom") polZero "boom" rfl rfl

/-- C10: when the provider short name has no words (an empty split), the
keyword construction raises IndexError before any news item is examined,
so the worker stores the error string whatever the feed held — even a feed
full of items matching the ticker. -/
theorem c10_empty_short_name (st : ReportState) (symbol : String)
    (d : NewsFetchData) (pol : String → ℚ) (hw : pySplitWs d.shortName = []) :
    get_news_data_run st symbol (Except.ok d) pol =
      { st with result_news := "Error: list index out of range" } := by
  have h : newsOutcome symbol (Except.ok d) pol =
      Except.error "list index out of range" := by
    unfold newsOutcome newsBody
    dsimp only
    rw [hw]
  unfold get_news_data_run
  rw [h]
  rfl

/-- C10, witness: an empty short name together with a feed whose only item
matches the ticker `AMD`; the worker still yields the IndexError text. -/
theorem c10_empty_short_name_witness :
    pySplitWs "" = [] ∧
    strContains (pyUpper (amdItem.title ++ " " ++ amdItem.summary)) (pyUpper "AMD") = true ∧
    get_news_data_run initState "AMD" (Except.ok ⟨[amdItem], ""⟩) polZero =
      { initState with result_news := "Error: list index out of range" } :=
  ⟨by decide, by decide,
    c10_empty_short_name initState "AMD" ⟨[amdItem], ""⟩ polZero (by decide)⟩

end DeepBlue
